import Mathlib

/-!
Shallow embedding of the TechStax GitHub webhook receiver (`src/main.py`):
the event classifier (`extract_push_event`, `extract_pull_request_event`),
the timestamp normalizer (`format_timestamp`), the message formatter
(`create_formatted_message`) and the polling read path (`get_events`).

Webhook payloads are arbitrary JSON trees.  Python attribute errors raised
by calling `.get`/`.replace` on a value of the wrong type, and pydantic
validation errors raised by the `GitHubEvent` constructor, are modelled with
`Except Unit`; the classifier's `try/except` wrapper turns any such error
into `none` ("no event produced"), exactly as the code's `except` branch
returns `None`.
-/

/-- JSON values, the shape of a parsed webhook payload body. -/
inductive Json where
  | null : Json
  | str : String → Json
  | bool : Bool → Json
  | num : Int → Json
  | arr : List Json → Json
  | obj : List (String × Json) → Json

/-- Python truthiness of a JSON value (`if x:`): `None`, `False`, `0`, `""`,
`[]` and `{}` are falsy, everything else truthy. -/
def truthy : Json → Bool
  | .null => false
  | .str s => !(s == "")
  | .bool b => b
  | .num n => !(n == 0)
  | .arr l => !l.isEmpty
  | .obj fs => !fs.isEmpty

/-- Python `x == "lit"` for a JSON value `x`: true only when `x` is that
very string. -/
def pyEqStr (j : Json) (t : String) : Bool :=
  match j with
  | .str s => s == t
  | _ => false

/-- Python `x.get(key, default)`: on a dict, the stored value when the key is
present (even when that value is `None`), the default when absent; on any
non-dict value, an `AttributeError` (modelled as `Except.error`). -/
def pyGetAttrD (j : Json) (key : String) (dflt : Json) : Except Unit Json :=
  match j with
  | .obj fs => .ok ((fs.lookup key).getD dflt)
  | _ => .error ()

/-- Python `x.replace(pat, repl)` needs `x` to be a string; any other value
raises an `AttributeError`. -/
def asString : Json → Except Unit String
  | .str s => .ok s
  | _ => .error ()

/-- Scanner for the replacement of every non-overlapping occurrence of the
pattern `p0 :: pr` by `repl`, left to right: a positive `skip` silently
consumes the tail of a match already emitted. -/
def raAux (p0 : Char) (pr : List Char) (repl : List Char) : Nat → List Char → List Char
  | _, [] => []
  | skip + 1, _ :: rest => raAux p0 pr repl skip rest
  | 0, c :: rest =>
    if (p0 :: pr).isPrefixOf (c :: rest) then
      repl ++ raAux p0 pr repl pr.length rest
    else
      c :: raAux p0 pr repl 0 rest

/-- Replacement of every non-overlapping occurrence of the pattern
`p0 :: pr` (nonempty by construction) by `repl`, scanning left to right:
the semantics of Python `str.replace` for a nonempty pattern. -/
def replaceAll (p0 : Char) (pr : List Char) (repl : List Char) (l : List Char) : List Char :=
  raAux p0 pr repl 0 l

/-- Python `s.replace(pat, repl)` on strings (for the nonempty patterns the
code uses; an empty pattern is treated as a no-op). -/
def pyReplace (s pat repl : String) : String :=
  match pat.data with
  | [] => s
  | p0 :: pr => ⟨replaceAll p0 pr repl.data s.data⟩

/-- Does the nonempty pattern `p0 :: pr` occur as a contiguous sublist? -/
def occursIn (p0 : Char) (pr : List Char) : List Char → Bool
  | [] => false
  | c :: rest => (p0 :: pr).isPrefixOf (c :: rest) || occursIn p0 pr rest

/-- Does `pat` occur as a contiguous substring of `s`? (An empty pattern
counts as occurring.) -/
def containsSub (pat s : String) : Bool :=
  match pat.data with
  | [] => true
  | p0 :: pr => occursIn p0 pr s.data

/-- The `ActionType` enum of `main.py`. -/
inductive ActionType where
  | push
  | pullRequest
  | merge
deriving DecidableEq

/-- The string value of each `ActionType` member (`str, Enum` with
`use_enum_values`). -/
def ActionType.value : ActionType → String
  | .push => "PUSH"
  | .pullRequest => "PULL_REQUEST"
  | .merge => "MERGE"

/-- The pydantic `GitHubEvent` model: the canonical event record. -/
structure GitHubEvent where
  author : String
  action : ActionType
  from_branch : Option String
  to_branch : String
  timestamp : String
deriving DecidableEq

/-- Pydantic validation of a `str` field: only a JSON string is accepted
(`None`, numbers, booleans, trees raise a `ValidationError`). -/
def validStr : Json → Option String
  | .str s => some s
  | _ => none

/-- Pydantic validation of an `Optional[str]` field: `None` or a string. -/
def validOptStr : Json → Option (Option String)
  | .null => some none
  | .str s => some (some s)
  | _ => none

/-- The `GitHubEvent(...)` constructor call: validates the field values it is
given (the `action` argument is always passed as an enum member by the
code, so it needs no validation); a failed validation raises. -/
def mkGitHubEvent (author : Json) (action : ActionType) (from_branch to_branch timestamp : Json) :
    Except Unit GitHubEvent :=
  match validStr author, validOptStr from_branch, validStr to_branch, validStr timestamp with
  | some a, some fb, some tb, some ts => .ok ⟨a, action, fb, tb, ts⟩
  | _, _, _, _ => .error ()

/-- Body of `extract_push_event` (`main.py` lines 221-241), before the
`try/except` wrapper.  `now` is the ISO string `datetime.now(timezone.utc)`
would produce at processing time. -/
def extract_push_core (now : String) (payload : Json) : Except Unit GitHubEvent := do
  let pusher ← pyGetAttrD payload "pusher" (.obj [])
  let author0 ← pyGetAttrD pusher "name" (.str "")
  let author ←
    if truthy author0 then pure author0 else do
      let sender ← pyGetAttrD payload "sender" (.obj [])
      pyGetAttrD sender "login" (.str "Unknown")
  let ref ← pyGetAttrD payload "ref" (.str "")
  let to_branch ←
    if truthy ref then do
      let r ← asString ref
      pure (Json.str (pyReplace r "refs/heads/" ""))
    else pure (Json.str "unknown")
  let head_commit ← pyGetAttrD payload "head_commit" (.obj [])
  let timestamp ← pyGetAttrD head_commit "timestamp" (.str now)
  mkGitHubEvent author .push .null to_branch timestamp

/-- `extract_push_event`: the `except` branch catches any error and returns
`None`. -/
def extract_push_event (now : String) (payload : Json) : Option GitHubEvent :=
  match extract_push_core now payload with
  | .ok e => some e
  | .error _ => none

/-- Body of `extract_pull_request_event` (`main.py` lines 258-300), before
the `try/except` wrapper.  `.ok none` is the deliberate
`return None  # Ignore other PR actions` path. -/
def extract_pr_core (now : String) (payload : Json) : Except Unit (Option GitHubEvent) := do
  let pr_action ← pyGetAttrD payload "action" (.str "")
  let pull_request ← pyGetAttrD payload "pull_request" (.obj [])
  let user ← pyGetAttrD pull_request "user" (.obj [])
  let author0 ← pyGetAttrD user "login" (.str "")
  let author ←
    if truthy author0 then pure author0 else do
      let sender ← pyGetAttrD payload "sender" (.obj [])
      pyGetAttrD sender "login" (.str "Unknown")
  let head ← pyGetAttrD pull_request "head" (.obj [])
  let base ← pyGetAttrD pull_request "base" (.obj [])
  let from_branch ← pyGetAttrD head "ref" (.str "unknown")
  let to_branch ← pyGetAttrD base "ref" (.str "unknown")
  let is_merged ← pyGetAttrD pull_request "merged" (.bool false)
  let merged_at ← pyGetAttrD pull_request "merged_at" .null
  if pyEqStr pr_action "closed" && truthy is_merged && truthy merged_at then do
    let merged_by_obj ← pyGetAttrD pull_request "merged_by" (.obj [])
    let merged_by ← pyGetAttrD merged_by_obj "login" author
    let e ← mkGitHubEvent merged_by .merge from_branch to_branch merged_at
    pure (some e)
  else if pyEqStr pr_action "opened" || pyEqStr pr_action "reopened" then do
    let created_at ← pyGetAttrD pull_request "created_at" (.str now)
    let e ← mkGitHubEvent author .pullRequest from_branch to_branch created_at
    pure (some e)
  else
    pure none

/-- `extract_pull_request_event`: the `except` branch catches any error and
returns `None`. -/
def extract_pull_request_event (now : String) (payload : Json) : Option GitHubEvent :=
  match extract_pr_core now payload with
  | .ok r => r
  | .error _ => none

/-- The fields of a Python `datetime` that `format_timestamp` goes on to
render: tz information is parsed and validated but never used by the
`strftime` format string, so only its presence is kept. -/
structure PyDatetime where
  year : Nat
  month : Nat
  day : Nat
  hour : Nat
  minute : Nat
  second : Nat
  tzMinutes : Option Int
deriving DecidableEq

/-- Gregorian leap-year rule used by `datetime`'s day-of-month validation. -/
def isLeap (y : Nat) : Bool :=
  y % 4 == 0 && (y % 100 != 0 || y % 400 == 0)

/-- Number of days in a month, as `datetime` validates it. -/
def daysInMonth (y m : Nat) : Nat :=
  if m = 2 then (if isLeap y then 29 else 28)
  else if m = 4 ∨ m = 6 ∨ m = 9 ∨ m = 11 then 30
  else 31

/-- Numeric value of a list of decimal digit characters. -/
def natOfDigits (l : List Char) : Nat :=
  l.foldl (fun a c => a * 10 + (c.toNat - 48)) 0

/-- The `YYYY-MM-DD` head of `datetime.fromisoformat`'s input: four digit
year, two digit month, two digit day, validated the way the `datetime`
constructor validates them.  Returns the remainder of the string after the
ten date characters. -/
def parseIsoDate : List Char → Option (Nat × Nat × Nat × List Char)
  | y1 :: y2 :: y3 :: y4 :: '-' :: m1 :: m2 :: '-' :: d1 :: d2 :: rest =>
    if [y1, y2, y3, y4, m1, m2, d1, d2].all Char.isDigit then
      let y := natOfDigits [y1, y2, y3, y4]
      let m := natOfDigits [m1, m2]
      let d := natOfDigits [d1, d2]
      if 1 ≤ y ∧ 1 ≤ m ∧ m ≤ 12 ∧ 1 ≤ d ∧ d ≤ daysInMonth y m then
        some (y, m, d, rest)
      else none
    else none
  | _ => none

/-- Exactly two decimal digits. -/
def parse2 : List Char → Option (Nat × List Char)
  | a :: b :: rest =>
    if a.isDigit && b.isDigit then some (natOfDigits [a, b], rest) else none
  | _ => none

/-- An optional fractional-seconds tail: empty, or a dot followed by exactly
three or six digits (`fromisoformat`'s accepted shapes); the value is
parsed but unused by the rendering. -/
def fracOk : List Char → Bool
  | [] => true
  | '.' :: ds => (ds.length == 3 || ds.length == 6) && ds.all Char.isDigit
  | _ => false

/-- The `HH[:MM[:SS[.fff[fff]]]]` time components of `fromisoformat`
(without any tz suffix), consuming the whole list; out-of-range components
make the `datetime` constructor raise, hence `none`. -/
def parseIsoTime (l : List Char) : Option (Nat × Nat × Nat) :=
  match parse2 l with
  | none => none
  | some (h, rest1) =>
    match rest1 with
    | [] => if h ≤ 23 then some (h, 0, 0) else none
    | ':' :: r2 =>
      match parse2 r2 with
      | none => none
      | some (mi, rest2) =>
        match rest2 with
        | [] => if h ≤ 23 ∧ mi ≤ 59 then some (h, mi, 0) else none
        | ':' :: r3 =>
          match parse2 r3 with
          | none => none
          | some (se, rest3) =>
            if fracOk rest3 ∧ h ≤ 23 ∧ mi ≤ 59 ∧ se ≤ 59 then some (h, mi, se) else none
        | _ => none
    | _ => none

/-- Split a time string at the first `-`, else at the first `+` (the rule
`tstr.find('-') + 1 or tstr.find('+') + 1` of `fromisoformat`'s helper):
the pieces before and after the sign, and whether the sign was `-`. -/
def splitTzSign : List Char → Option (List Char × Bool × List Char)
  | [] => none
  | c :: rest =>
    if c = '-' then some ([], true, rest)
    else
      match splitTzSign rest with
      | some (pre, sgn, post) => some (c :: pre, sgn, post)
      | none => if c = '+' then some ([], false, rest) else none

/-- A tz suffix `HH:MM[:SS[.ffffff]]` after the sign: `fromisoformat`
accepts lengths 5, 8 and 15, and the resulting offset must be a valid
`timezone` (strictly less than 24 hours).  Only validity matters to the
rendering; the offset's sign handling is kept for fidelity. -/
def parseTzTail (sgn : Bool) (l : List Char) : Option Int :=
  if l.length = 5 ∨ l.length = 8 ∨ l.length = 15 then
    match parse2 l with
    | none => none
    | some (oh, rest1) =>
      match rest1 with
      | ':' :: r2 =>
        match parse2 r2 with
        | none => none
        | some (om, rest2) =>
          let secOk : Bool :=
            match rest2 with
            | [] => true
            | ':' :: r3 =>
              match parse2 r3 with
              | some (os, rest3) => os ≤ 59 && fracOk rest3
              | none => false
            | _ => false
          if secOk ∧ oh ≤ 23 ∧ om ≤ 59 then
            some (if sgn then -(oh * 60 + om : Int) else (oh * 60 + om : Int))
          else none
      | _ => none
  else none

/-- `datetime.fromisoformat` as the code relies on it: a strict
`YYYY-MM-DD` date, optionally followed by a single separator character and
a `HH[:MM[:SS[.fff[fff]]]]` time with an optional `±HH:MM[:SS[.ffffff]]`
offset. -/
def pyFromIsoformat (s : String) : Option PyDatetime :=
  match parseIsoDate s.data with
  | none => none
  | some (y, m, d, rest) =>
    match rest with
    | [] => some ⟨y, m, d, 0, 0, 0, none⟩
    | _sep :: tcs =>
      match splitTzSign tcs with
      | none =>
        match parseIsoTime tcs with
        | some (h, mi, se) => some ⟨y, m, d, h, mi, se, none⟩
        | none => none
      | some (timecs, sgn, tzcs) =>
        match parseIsoTime timecs, parseTzTail sgn tzcs with
        | some (h, mi, se), some off => some ⟨y, m, d, h, mi, se, some off⟩
        | _, _ => none

/-- One-or-two-digit numeric field of `strptime` (`%m`, `%d`, `%H`, `%M`,
`%S` regexes): a two-digit match with the value in range wins, else a
single digit with the value in range; the next character being a digit
whenever two digits were available makes the one-digit alternative fail on
the following literal, so no further backtracking is needed for the
format `"%Y-%m-%dT%H:%M:%S"`. -/
def parseFlex (lo hi : Nat) (l : List Char) : Option (Nat × List Char) :=
  match l with
  | a :: b :: rest =>
    if a.isDigit && b.isDigit then
      if lo ≤ natOfDigits [a, b] ∧ natOfDigits [a, b] ≤ hi then some (natOfDigits [a, b], rest)
      else none
    else if a.isDigit then
      if lo ≤ natOfDigits [a] ∧ natOfDigits [a] ≤ hi then some (natOfDigits [a], b :: rest)
      else none
    else none
  | [a] =>
    if a.isDigit then
      if lo ≤ natOfDigits [a] ∧ natOfDigits [a] ≤ hi then some (natOfDigits [a], []) else none
    else none
  | [] => none

/-- `datetime.strptime(s, "%Y-%m-%dT%H:%M:%S")`: a four-digit year, flexible
one/two-digit numeric fields, the literal separators, the whole string
consumed, and the constructed date validated (day against month length,
year at least 1). -/
def pyStrptimeBare (s : String) : Option PyDatetime :=
  match s.data with
  | y1 :: y2 :: y3 :: y4 :: '-' :: rest0 =>
    if [y1, y2, y3, y4].all Char.isDigit then
      let y := natOfDigits [y1, y2, y3, y4]
      match parseFlex 1 12 rest0 with
      | some (m, '-' :: rest1) =>
        match parseFlex 1 31 rest1 with
        | some (d, 'T' :: rest2) =>
          match parseFlex 0 23 rest2 with
          | some (h, ':' :: rest3) =>
            match parseFlex 0 59 rest3 with
            | some (mi, ':' :: rest4) =>
              match parseFlex 0 59 rest4 with
              | some (se, []) =>
                if 1 ≤ y ∧ d ≤ daysInMonth y m then some ⟨y, m, d, h, mi, se, none⟩ else none
              | _ => none
            | _ => none
          | _ => none
        | _ => none
      | _ => none
    else none
  | _ => none

/-- English month names of `strftime %B` in the C locale. -/
def monthName : Nat → String
  | 1 => "January"
  | 2 => "February"
  | 3 => "March"
  | 4 => "April"
  | 5 => "May"
  | 6 => "June"
  | 7 => "July"
  | 8 => "August"
  | 9 => "September"
  | 10 => "October"
  | 11 => "November"
  | 12 => "December"
  | _ => ""

/-- Zero padding to two digits (`%I`, `%M`). -/
def pad2 (n : Nat) : String :=
  if n < 10 then "0" ++ toString n else toString n

/-- Twelve-hour clock value of `%I`. -/
def hour12 (h : Nat) : Nat :=
  if h % 12 = 0 then 12 else h % 12

/-- `%p` in the C locale. -/
def ampm (h : Nat) : String :=
  if h < 12 then "AM" else "PM"

/-- Python list indexing `l[i]`, where a negative index counts from the
end; an out-of-range index is an `IndexError`, hence `none`. -/
def pyListIndex (l : List String) (i : Int) : Option String :=
  if i < 0 then
    if 0 ≤ i + l.length then l.get? (i + l.length).toNat else none
  else l.get? i.toNat

/-- The ordinal-suffix computation of `format_timestamp` (`main.py` lines
170-173): `"th"` for 4-20 and 24-30, else `["st","nd","rd"][day % 10 - 1]`
with Python's signed arithmetic and indexing.  The `getD` default stands
for the `IndexError` case, which no day of a real month reaches. -/
def daySuffixCode (day : Nat) : String :=
  if (4 ≤ day ∧ day ≤ 20) ∨ (24 ≤ day ∧ day ≤ 30) then "th"
  else (pyListIndex ["st", "nd", "rd"] ((day : Int) % 10 - 1)).getD "IndexError"

/-- The `strftime(f"{day}{suffix} %B %Y - %I:%M %p UTC")` rendering. -/
def renderDt (dt : PyDatetime) : String :=
  toString dt.day ++ daySuffixCode dt.day ++ " " ++ monthName dt.month ++ " " ++
    toString dt.year ++ " - " ++ pad2 (hour12 dt.hour) ++ ":" ++ pad2 dt.minute ++ " " ++
    ampm dt.hour ++ " UTC"

/-- The parsing cascade of `format_timestamp`: `fromisoformat` after the
`replace('Z', '+00:00')`, and on `ValueError` the bare `strptime` with a
UTC tz attached. -/
def parsedDt (s : String) : Option PyDatetime :=
  match pyFromIsoformat (pyReplace s "Z" "+00:00") with
  | some dt => some dt
  | none =>
    match pyStrptimeBare s with
    | some dt => some { dt with tzMinutes := some 0 }
    | none => none

/-- `format_timestamp` (`main.py` lines 148-177): render the parsed
datetime, or return the input unchanged when both parse attempts fail. -/
def format_timestamp (timestamp_str : String) : String :=
  match parsedDt timestamp_str with
  | some dt => renderDt dt
  | none => timestamp_str

/-- The dictionary shape `GitHubEvent.model_dump()` stores in MongoDB: the
same five fields, the action as its enum string value. -/
structure StoredDoc where
  author : String
  action : String
  from_branch : Option String
  to_branch : String
  timestamp : String
deriving DecidableEq

/-- `model_dump` with `use_enum_values`. -/
def GitHubEvent.model_dump (e : GitHubEvent) : StoredDoc :=
  ⟨e.author, e.action.value, e.from_branch, e.to_branch, e.timestamp⟩

/-- Python `f"{x}"` on an optional string: `None` renders as `"None"`.  In
a stored document the `from_branch` key is always present, so the `.get`
default of `create_formatted_message` never applies and a stored `None` is
what reaches the f-string. -/
def optStrPy : Option String → String
  | some s => s
  | none => "None"

/-- `create_formatted_message` (`main.py` lines 180-208) on a stored
document: one template per action string, with a defensive default for an
unrecognized action value. -/
def create_formatted_message (event : StoredDoc) : String :=
  let ts := format_timestamp event.timestamp
  if event.action = "PUSH" then
    "\"" ++ event.author ++ "\" pushed to \"" ++ event.to_branch ++ "\" on " ++ ts
  else if event.action = "PULL_REQUEST" then
    "\"" ++ event.author ++ "\" submitted a pull request from \"" ++ optStrPy event.from_branch ++
      "\" to \"" ++ event.to_branch ++ "\" on " ++ ts
  else if event.action = "MERGE" then
    "\"" ++ event.author ++ "\" merged branch \"" ++ optStrPy event.from_branch ++ "\" to \"" ++
      event.to_branch ++ "\" on " ++ ts
  else
    "Unknown action by " ++ event.author

/-- A record of the MongoDB `events` collection: a stored document plus the
store-assigned `_id`. -/
structure StoredEvent where
  id : Nat
  author : String
  action : String
  from_branch : Option String
  to_branch : String
  timestamp : String
deriving DecidableEq

/-- The document part of a stored record. -/
def StoredEvent.doc (e : StoredEvent) : StoredDoc :=
  ⟨e.author, e.action, e.from_branch, e.to_branch, e.timestamp⟩

/-- The `EventResponse` model returned by `GET /api/events`. -/
structure EventResponse where
  id : String
  author : String
  action : String
  from_branch : Option String
  to_branch : String
  timestamp : String
  formatted_message : String
deriving DecidableEq

/-- Construction of one `EventResponse` from a stored record (`main.py`
lines 420-428); in documents written by this application every field is
present, so the defensive `.get` defaults never apply. -/
def EventResponse.ofStored (e : StoredEvent) : EventResponse :=
  ⟨toString e.id, e.author, e.action, e.from_branch, e.to_branch, e.timestamp,
    create_formatted_message e.doc⟩

/-- Descending-timestamp comparison used to model the store's
`sort("timestamp", -1)`. -/
def tsGE (a b : StoredEvent) : Prop :=
  b.timestamp ≤ a.timestamp

instance : DecidableRel tsGE := fun a b => inferInstanceAs (Decidable (b.timestamp ≤ a.timestamp))

instance : IsTotal StoredEvent tsGE :=
  ⟨fun a b => (le_total b.timestamp a.timestamp).imp id id⟩

instance : IsTrans StoredEvent tsGE :=
  ⟨fun _ _ _ h1 h2 => le_trans h2 h1⟩

/-- Modelled from the spec: the Event Store collaborator (`collection.find`
with a `$gt` timestamp filter, `sort("timestamp", -1)`, `limit`) is MongoDB
and not part of this repository; §4.4 specifies a strictly-greater-than
filter on the stored timestamp when `after` is supplied, descending
timestamp order, and a cap of `limit` entries. -/
def storeQuery (db : List StoredEvent) (after : Option String) (limit : Nat) :
    List StoredEvent :=
  ((db.filter fun e =>
      match after with
      | some t => decide (t < e.timestamp)
      | none => true).insertionSort tsGE).take limit

/-- `get_events` (`main.py` lines 387-437) over a store contents `db`: the
`$gt` clause is added only when `since` is truthy (so an empty string adds
no filter), and each fetched record is mapped to an `EventResponse`. -/
def get_events (db : List StoredEvent) (since : Option String) (limit : Nat) :
    List EventResponse :=
  let after : Option String :=
    match since with
    | some s => if s = "" then none else some s
    | none => none
  (storeQuery db after limit).map EventResponse.ofStored

/-!
Well-typed payload shapes.  `pushShape?`/`prShape?` classify a payload whose
accessed fields are each either absent or of the type the happy path
expects; over such payloads the extractors are characterized by a direct
functional model, proved below and reused by several claims.
-/

/-- A lookup result that is either absent or a string (`none` = field
absent). -/
def getStr? : Option Json → Option (Option String)
  | none => some none
  | some (.str s) => some (some s)
  | some _ => none

/-- A lookup result that is absent, explicit `null`, or a string
(`some none` = explicit `null`). -/
def getStrOrNull? : Option Json → Option (Option (Option String))
  | none => some none
  | some .null => some (some none)
  | some (.str s) => some (some (some s))
  | some _ => none

/-- A lookup result that is either absent or `null` (both of which Python's
`dict.get` without default maps to `None`), or a string. -/
def getStrNullAbsent? : Option Json → Option (Option String)
  | none => some none
  | some .null => some none
  | some (.str s) => some (some s)
  | some _ => none

/-- A lookup result that is either absent or a boolean. -/
def getBool? : Option Json → Option (Option Bool)
  | none => some none
  | some (.bool b) => some (some b)
  | some _ => none

/-- A lookup result that is either absent or an object; the absent case
behaves as the `{}` default of the code's `.get(key, {})`. -/
def getObjFields? : Option Json → Option (List (String × Json))
  | none => some []
  | some (.obj fs) => some fs
  | some _ => none

/-- The fields a push payload contributes, when each is absent or
well-typed. -/
structure PushShape where
  name : Option String
  login : Option String
  ref : Option String
  ts : Option String
deriving DecidableEq

/-- Classify a push payload whose accessed fields are absent or
well-typed. -/
def pushShape? (p : Json) : Option PushShape :=
  match p with
  | .obj fs => do
    let pfs ← getObjFields? (fs.lookup "pusher")
    let name ← getStr? (pfs.lookup "name")
    let sfs ← getObjFields? (fs.lookup "sender")
    let login ← getStr? (sfs.lookup "login")
    let ref ← getStr? (fs.lookup "ref")
    let hfs ← getObjFields? (fs.lookup "head_commit")
    let ts ← getStr? (hfs.lookup "timestamp")
    some ⟨name, login, ref, ts⟩
  | _ => none

/-- Functional model of the push extractor over a well-typed shape. -/
def pushEventModel (now : String) (sh : PushShape) : GitHubEvent :=
  let author :=
    match sh.name with
    | some n => if n = "" then sh.login.getD "Unknown" else n
    | none => sh.login.getD "Unknown"
  let to_branch :=
    match sh.ref with
    | some r => if r = "" then "unknown" else pyReplace r "refs/heads/" ""
    | none => "unknown"
  ⟨author, .push, none, to_branch, sh.ts.getD now⟩

/-- The fields a pull-request payload contributes, when each is absent or
well-typed; `fromRef = some none` records an explicit `null` `head.ref`
(which pydantic's `Optional[str]` accepts). -/
structure PRShape where
  action : Option String
  userLogin : Option String
  senderLogin : Option String
  fromRef : Option (Option String)
  toRef : Option String
  merged : Option Bool
  mergedAt : Option String
  mergedByLogin : Option String
  createdAt : Option String
deriving DecidableEq

/-- Classify a pull-request payload whose accessed fields are absent or
well-typed. -/
def prShape? (p : Json) : Option PRShape :=
  match p with
  | .obj fs => do
    let act ← getStr? (fs.lookup "action")
    let prfs ← getObjFields? (fs.lookup "pull_request")
    let ufs ← getObjFields? (prfs.lookup "user")
    let userLogin ← getStr? (ufs.lookup "login")
    let sfs ← getObjFields? (fs.lookup "sender")
    let senderLogin ← getStr? (sfs.lookup "login")
    let hfs ← getObjFields? (prfs.lookup "head")
    let fromRef ← getStrOrNull? (hfs.lookup "ref")
    let bfs ← getObjFields? (prfs.lookup "base")
    let toRef ← getStr? (bfs.lookup "ref")
    let merged ← getBool? (prfs.lookup "merged")
    let mergedAt ← getStrNullAbsent? (prfs.lookup "merged_at")
    let mfs ← getObjFields? (prfs.lookup "merged_by")
    let mergedByLogin ← getStr? (mfs.lookup "login")
    let createdAt ← getStr? (prfs.lookup "created_at")
    some ⟨act, userLogin, senderLogin, fromRef, toRef, merged, mergedAt, mergedByLogin, createdAt⟩
  | _ => none

/-- The author string the PR path resolves before branching: the PR user's
login when truthy, else the sender's login, else `"Unknown"`. -/
def prAuthor (sh : PRShape) : String :=
  match sh.userLogin with
  | some l => if l = "" then sh.senderLogin.getD "Unknown" else l
  | none => sh.senderLogin.getD "Unknown"

/-- The `from_branch` value an absent / null / string `head.ref` ends up
as after pydantic validation. -/
def fbOf : Option (Option String) → Option String
  | none => some "unknown"
  | some none => none
  | some (some s) => some s

/-- Functional model of the pull-request extractor over a well-typed
shape. -/
def prEventModel (now : String) (sh : PRShape) : Option GitHubEvent :=
  if sh.action = some "closed" ∧ sh.merged = some true ∧ sh.mergedAt.getD "" ≠ "" then
    some ⟨sh.mergedByLogin.getD (prAuthor sh), .merge, fbOf sh.fromRef, sh.toRef.getD "unknown",
      sh.mergedAt.getD ""⟩
  else if sh.action = some "opened" ∨ sh.action = some "reopened" then
    some ⟨prAuthor sh, .pullRequest, fbOf sh.fromRef, sh.toRef.getD "unknown",
      sh.createdAt.getD now⟩
  else none

/-- A well-typed object field seen through the `.get(key, {})` default. -/
theorem getObjFields?_getD {o : Option Json} {l : List (String × Json)}
    (h : getObjFields? o = some l) : o.getD (.obj []) = .obj l := by
  cases o with
  | none => simp only [getObjFields?] at h; injection h with h; subst h; rfl
  | some j =>
    cases j <;> simp only [getObjFields?] at h <;>
      first
      | (injection h with h; subst h; rfl)
      | simp at h

/-- A well-typed string field seen through a `.get(key, default)` with a
string default. -/
theorem getStr?_getD {o : Option Json} {v : Option String}
    (h : getStr? o = some v) (d : String) : o.getD (.str d) = .str (v.getD d) := by
  cases o with
  | none => simp only [getStr?] at h; injection h with h; subst h; rfl
  | some j =>
    cases j <;> simp only [getStr?] at h <;>
      first
      | (injection h with h; subst h; rfl)
      | simp at h

/-- The JSON value an absent / explicitly null / string `head.ref` presents
to the code through `.get("ref", "unknown")`. -/
def jsonOfFromRef : Option (Option String) → Json
  | none => .str "unknown"
  | some none => .null
  | some (some s) => .str s

theorem getStrOrNull?_getD {o : Option Json} {v : Option (Option String)}
    (h : getStrOrNull? o = some v) : o.getD (.str "unknown") = jsonOfFromRef v := by
  cases o with
  | none => simp only [getStrOrNull?] at h; injection h with h; subst h; rfl
  | some j =>
    cases j <;> simp only [getStrOrNull?] at h <;>
      first
      | (injection h with h; subst h; rfl)
      | simp at h

/-- A well-typed boolean field seen through `.get(key, False)`. -/
theorem getBool?_getD {o : Option Json} {v : Option Bool}
    (h : getBool? o = some v) : o.getD (.bool false) = .bool (v.getD false) := by
  cases o with
  | none => simp only [getBool?] at h; injection h with h; subst h; rfl
  | some j =>
    cases j <;> simp only [getBool?] at h <;>
      first
      | (injection h with h; subst h; rfl)
      | simp at h

/-- The JSON value an absent-or-null-or-string `merged_at` presents to the
code through `.get("merged_at")` (default `None`). -/
def jsonOfMergedAt : Option String → Json
  | none => .null
  | some s => .str s

theorem getStrNullAbsent?_getD {o : Option Json} {v : Option String}
    (h : getStrNullAbsent? o = some v) : o.getD .null = jsonOfMergedAt v := by
  cases o with
  | none => simp only [getStrNullAbsent?] at h; injection h with h; subst h; rfl
  | some j =>
    cases j <;> simp only [getStrNullAbsent?] at h <;>
      first
      | (injection h with h; subst h; rfl)
      | simp at h

/-- Over a well-typed payload the push extractor always succeeds and
produces exactly the functional model's event. -/
theorem extract_push_char (now : String) (p : Json) (sh : PushShape)
    (hs : pushShape? p = some sh) :
    extract_push_event now p = some (pushEventModel now sh) := by
  cases p with
  | obj fs =>
    simp only [pushShape?, bind, Option.bind_eq_some] at hs
    obtain ⟨pfs, hpfs, name, hname, sfs, hsfs, login, hlogin, ref, href, hfs2, hhfs, ts, hts,
      hsh⟩ := hs
    injection hsh with hsh
    subst hsh
    simp only [extract_push_event, extract_push_core, bind, Except.bind, pyGetAttrD,
      getObjFields?_getD hpfs, getStr?_getD hname "", getObjFields?_getD hsfs,
      getStr?_getD hlogin "Unknown", getStr?_getD href "", getObjFields?_getD hhfs,
      getStr?_getD hts now, pushEventModel]
    cases name with
    | some n =>
      by_cases hn : n = "" <;>
        cases ref with
        | some r =>
          by_cases hr : r = "" <;>
            simp [truthy, asString, mkGitHubEvent, validStr, validOptStr, hn, hr, pure, Except.pure]
        | none => simp [truthy, asString, mkGitHubEvent, validStr, validOptStr, hn, pure, Except.pure]
    | none =>
      cases ref with
      | some r =>
        by_cases hr : r = "" <;>
          simp [truthy, asString, mkGitHubEvent, validStr, validOptStr, hr, pure, Except.pure]
      | none => simp [truthy, asString, mkGitHubEvent, validStr, validOptStr, pure, Except.pure]
  | null => simp [pushShape?] at hs
  | str s => simp [pushShape?] at hs
  | bool b => simp [pushShape?] at hs
  | num n => simp [pushShape?] at hs
  | arr l => simp [pushShape?] at hs


/-- Truthiness of a JSON string is non-emptiness. -/
theorem truthy_str (s : String) : truthy (.str s) = !(s == "") := rfl

/-- The truthiness test the code applies to a well-typed `merged_at`. -/
theorem truthy_jsonOfMergedAt (v : Option String) :
    truthy (jsonOfMergedAt v) = !(v.getD "" == "") := by
  cases v <;> simp [jsonOfMergedAt, truthy]

/-- Pydantic validation of the `from_branch` value a well-typed `head.ref`
produces. -/
theorem validOptStr_jsonOfFromRef (v : Option (Option String)) :
    validOptStr (jsonOfFromRef v) = some (fbOf v) := by
  rcases v with _ | _ | s <;> rfl

/-- The code's merge-branch boolean guard coincides with the model's
condition. -/
theorem prMergeCond_eq (act : Option String) (merged : Option Bool) (ma : Option String) :
    (pyEqStr (.str (act.getD "")) "closed" && truthy (.bool (merged.getD false)) &&
        truthy (jsonOfMergedAt ma)) =
      decide (act = some "closed" ∧ merged = some true ∧ ma.getD "" ≠ "") := by
  apply Bool.eq_iff_iff.mpr
  rcases act with _ | a <;> rcases merged with _ | b <;> rcases ma with _ | s <;>
    simp [pyEqStr, truthy, jsonOfMergedAt] <;> (try cases b) <;> simp

/-- The code's opened/reopened boolean guard coincides with the model's
condition. -/
theorem prOpenCond_eq (act : Option String) :
    (pyEqStr (.str (act.getD "")) "opened" || pyEqStr (.str (act.getD "")) "reopened") =
      decide (act = some "opened" ∨ act = some "reopened") := by
  apply Bool.eq_iff_iff.mpr
  rcases act with _ | a <;> simp [pyEqStr]

/-- Over a well-typed payload the pull-request extractor never raises and
produces exactly the functional model's outcome. -/
theorem extract_pr_char (now : String) (p : Json) (sh : PRShape)
    (hs : prShape? p = some sh) :
    extract_pull_request_event now p = prEventModel now sh := by
  cases p with
  | obj fs =>
    rw [prShape?] at hs
    obtain ⟨act, hact, hs⟩ := Option.bind_eq_some.mp hs
    obtain ⟨prfs, hprfs, hs⟩ := Option.bind_eq_some.mp hs
    obtain ⟨ufs, hufs, hs⟩ := Option.bind_eq_some.mp hs
    obtain ⟨userLogin, huser, hs⟩ := Option.bind_eq_some.mp hs
    obtain ⟨sfs, hsfs, hs⟩ := Option.bind_eq_some.mp hs
    obtain ⟨senderLogin, hsender, hs⟩ := Option.bind_eq_some.mp hs
    obtain ⟨hfs2, hhfs, hs⟩ := Option.bind_eq_some.mp hs
    obtain ⟨fromRef, hfrom, hs⟩ := Option.bind_eq_some.mp hs
    obtain ⟨bfs, hbfs, hs⟩ := Option.bind_eq_some.mp hs
    obtain ⟨toRef, hto, hs⟩ := Option.bind_eq_some.mp hs
    obtain ⟨merged, hmerged, hs⟩ := Option.bind_eq_some.mp hs
    obtain ⟨mergedAt, hma, hs⟩ := Option.bind_eq_some.mp hs
    obtain ⟨mfs, hmfs, hs⟩ := Option.bind_eq_some.mp hs
    obtain ⟨mergedByLogin, hmby, hs⟩ := Option.bind_eq_some.mp hs
    obtain ⟨createdAt, hcreated, hsh⟩ := Option.bind_eq_some.mp hs
    injection hsh with hsh
    subst hsh
    simp only [extract_pull_request_event, extract_pr_core, bind, Except.bind, pyGetAttrD,
      getStr?_getD hact "", getObjFields?_getD hprfs, getObjFields?_getD hufs,
      getStr?_getD huser "", getObjFields?_getD hsfs, getStr?_getD hsender "Unknown",
      getObjFields?_getD hhfs, getStrOrNull?_getD hfrom, getObjFields?_getD hbfs,
      getStr?_getD hto "unknown", getBool?_getD hmerged, getStrNullAbsent?_getD hma,
      getObjFields?_getD hmfs, getStr?_getD hcreated now]
    cases userLogin with
    | some l =>
      by_cases hl : l = ""
      · subst hl
        simp only [Option.getD_some, truthy_str, beq_self_eq_true, Bool.not_true,
          Bool.false_eq_true, if_false, Except.bind, getStr?_getD hmby]
        simp only [prMergeCond_eq, prOpenCond_eq, decide_eq_true_eq, prEventModel, prAuthor]
        split_ifs with h1 h2
        · rcases mergedAt with _ | s
          · simp at h1
          · simp [jsonOfMergedAt, mkGitHubEvent, validStr, validOptStr_jsonOfFromRef, pure,
              Except.pure]
        · simp [mkGitHubEvent, validStr, validOptStr_jsonOfFromRef, pure, Except.pure]
        · rfl
      · simp only [Option.getD_some, truthy_str, Except.bind]
        rw [show (l == "") = false from by simp [hl]]
        simp only [Bool.not_false, if_true, Except.bind, getStr?_getD hmby]
        simp only [prMergeCond_eq, prOpenCond_eq, decide_eq_true_eq, prEventModel, prAuthor]
        split_ifs with h1 h2
        · rcases mergedAt with _ | s
          · simp at h1
          · simp [hl, jsonOfMergedAt, mkGitHubEvent, validStr, validOptStr_jsonOfFromRef, pure,
              Except.pure, getStr?_getD hmby]
        · simp [hl, mkGitHubEvent, validStr, validOptStr_jsonOfFromRef, pure, Except.pure,
            getStr?_getD hmby]
        · rfl
    | none =>
      simp only [Option.getD_none, truthy_str, beq_self_eq_true, Bool.not_true,
        Bool.false_eq_true, if_false, Except.bind, getStr?_getD hmby]
      simp only [prMergeCond_eq, prOpenCond_eq, decide_eq_true_eq, prEventModel, prAuthor]
      split_ifs with h1 h2
      · rcases mergedAt with _ | s
        · simp at h1
        · simp [jsonOfMergedAt, mkGitHubEvent, validStr, validOptStr_jsonOfFromRef, pure,
            Except.pure]
      · simp [mkGitHubEvent, validStr, validOptStr_jsonOfFromRef, pure, Except.pure]
      · rfl
  | null => simp [prShape?] at hs
  | str s => simp [prShape?] at hs
  | bool b => simp [prShape?] at hs
  | num n => simp [prShape?] at hs
  | arr l => simp [prShape?] at hs

/-- Modelled from the spec: "to_branch = `ref` with a literal `refs/heads/`
prefix stripped if present" — the spec-side branch-name computation, to be
compared with the code's `str.replace`. -/
def stripHeadsSpec (r : String) : String :=
  if ("refs/heads/".data).isPrefixOf r.data then ⟨r.data.drop 11⟩ else r

/-- A positive skip consumes exactly that many characters before the
scanner resumes. -/
theorem raAux_skip (p0 : Char) (pr repl : List Char) :
    ∀ l1 l2 : List Char, raAux p0 pr repl l1.length (l1 ++ l2) = raAux p0 pr repl 0 l2 := by
  intro l1
  induction l1 with
  | nil => intro l2; rfl
  | cons c rest ih => intro l2; simpa [raAux] using ih l2

/-- Scanning a list that starts with the pattern itself replaces that
occurrence and continues after it. -/
theorem replaceAll_self_append (p0 : Char) (pr repl rest : List Char) :
    replaceAll p0 pr repl ((p0 :: pr) ++ rest) = repl ++ replaceAll p0 pr repl rest := by
  have hpre : (p0 :: pr).isPrefixOf (p0 :: (pr ++ rest)) = true :=
    List.isPrefixOf_iff_prefix.mpr ⟨rest, by simp⟩
  unfold replaceAll
  rw [show (p0 :: pr) ++ rest = p0 :: (pr ++ rest) from rfl, raAux, if_pos hpre, raAux_skip]

/-- A list in which the pattern never occurs is left unchanged. -/
theorem replaceAll_of_not_occurs (p0 : Char) (pr repl : List Char) :
    ∀ l : List Char, occursIn p0 pr l = false → replaceAll p0 pr repl l = l := by
  intro l
  induction l with
  | nil => intro _; rfl
  | cons c rest ih =>
    intro h
    rw [occursIn] at h
    simp only [Bool.or_eq_false_iff] at h
    unfold replaceAll at ih ⊢
    rw [raAux, if_neg (by simp [h.1]), ih h.2]

/-- When the string past a leading `refs/heads/` prefix (or the whole
string, when there is no such prefix) contains no occurrence of
`refs/heads/`, the code's replace-all agrees with the spec's
strip-the-prefix. -/
theorem pyReplace_heads_eq_spec (r : String)
    (h : containsSub "refs/heads/" (stripHeadsSpec r) = false) :
    pyReplace r "refs/heads/" "" = stripHeadsSpec r := by
  obtain ⟨l⟩ := r
  by_cases hp : ("refs/heads/".data).isPrefixOf l
  · obtain ⟨t, ht⟩ := List.isPrefixOf_iff_prefix.mp hp
    have hdrop : l.drop 11 = t := by
      rw [← ht]
      simp
    rw [stripHeadsSpec] at h ⊢
    simp only [String.data] at hp h ⊢
    rw [if_pos hp] at h ⊢
    rw [containsSub] at h
    simp only [String.data, hdrop] at h ⊢
    rw [pyReplace]
    simp only [String.data]
    rw [← ht, replaceAll_self_append, replaceAll_of_not_occurs _ _ _ t h]
    rfl
  · rw [stripHeadsSpec] at h ⊢
    simp only [String.data] at hp h ⊢
    rw [if_neg hp] at h ⊢
    rw [containsSub] at h
    simp only [String.data] at h
    rw [pyReplace]
    simp only [String.data]
    rw [replaceAll_of_not_occurs _ _ _ l h]

/-- Every month length the validation uses lies between 28 and 31. -/
theorem daysInMonth_le_31 (y m : Nat) : daysInMonth y m ≤ 31 := by
  unfold daysInMonth
  split_ifs <;> omega

/-- A date accepted by the ISO date parser has a day of month in 1..31. -/
theorem parseIsoDate_day_bound {cs : List Char} {y m d : Nat} {rest : List Char}
    (h : parseIsoDate cs = some (y, m, d, rest)) : 1 ≤ d ∧ d ≤ 31 := by
  unfold parseIsoDate at h
  split at h
  · split at h
    · dsimp only at h
      split_ifs at h with hcond
      · simp only [Option.some.injEq, Prod.mk.injEq] at h
        obtain ⟨hy, hm, hd, hrest⟩ := h
        subst hd
        exact ⟨hcond.2.2.2.1, le_trans hcond.2.2.2.2 (daysInMonth_le_31 _ _)⟩
    · exact absurd h (by simp)
  · exact absurd h (by simp)

/-- A datetime produced by the modelled `fromisoformat` has its day of
month in 1..31. -/
theorem pyFromIsoformat_day_bound {s : String} {dt : PyDatetime}
    (h : pyFromIsoformat s = some dt) : 1 ≤ dt.day ∧ dt.day ≤ 31 := by
  unfold pyFromIsoformat at h
  split at h
  · exact absurd h (by simp)
  · rename_i y m d rest hpd
    have hb := parseIsoDate_day_bound hpd
    split at h
    · injection h with h
      subst h
      exact hb
    · split at h
      · split at h
        · injection h with h
          subst h
          exact hb
        · exact absurd h (by simp)
      · split at h
        · injection h with h
          subst h
          exact hb
        · exact absurd h (by simp)

/-- A value accepted by the flexible one-or-two-digit field parser lies in
the requested range. -/
theorem parseFlex_bound {lo hi : Nat} {l : List Char} {v : Nat} {rest : List Char}
    (h : parseFlex lo hi l = some (v, rest)) : lo ≤ v ∧ v ≤ hi := by
  unfold parseFlex at h
  split at h
  · split_ifs at h <;>
      (simp only [Option.some.injEq, Prod.mk.injEq] at h
       obtain ⟨hv, -⟩ := h
       subst hv
       constructor <;> tauto)
  · split_ifs at h <;>
      (simp only [Option.some.injEq, Prod.mk.injEq] at h
       obtain ⟨hv, -⟩ := h
       subst hv
       constructor <;> tauto)
  · exact absurd h (by simp)

/-- A datetime produced by the modelled bare `strptime` has its day of
month in 1..31. -/
theorem pyStrptimeBare_day_bound {s : String} {dt : PyDatetime}
    (h : pyStrptimeBare s = some dt) : 1 ≤ dt.day ∧ dt.day ≤ 31 := by
  unfold pyStrptimeBare at h
  split at h
  · split_ifs at h with hdig
    dsimp only at h
    split at h
    · rename_i m rest1 hm
      split at h
      · rename_i d rest2 hd
        have hb := parseFlex_bound hd
        split at h
        · split at h
          · split at h
            · split_ifs at h with hval
              injection h with h
              subst h
              exact hb
            · exact absurd h (by simp)
          · exact absurd h (by simp)
        · exact absurd h (by simp)
      · exact absurd h (by simp)
    · exact absurd h (by simp)
  · exact absurd h (by simp)

/-- The day of month that `format_timestamp` renders, whenever either
parse attempt succeeds, lies in 1..31. -/
theorem parsedDt_day_bound {s : String} {dt : PyDatetime}
    (h : parsedDt s = some dt) : 1 ≤ dt.day ∧ dt.day ≤ 31 := by
  unfold parsedDt at h
  split at h
  · rename_i dt1 h1
    injection h with h
    subst h
    exact pyFromIsoformat_day_bound h1
  · split at h
    · rename_i dt2 h2
      injection h with h
      subst h
      have hb := pyStrptimeBare_day_bound h2
      exact hb
    · exact absurd h (by simp)

/-- Modelled from the spec: the claim's fixed ordinal-suffix table — days
1, 21, 31 get "st"; 2, 22 get "nd"; 3, 23 get "rd"; every other day of the
month gets "th". -/
def specSuffixTable (day : Nat) : String :=
  if day = 1 ∨ day = 21 ∨ day = 31 then "st"
  else if day = 2 ∨ day = 22 then "nd"
  else if day = 3 ∨ day = 23 then "rd"
  else "th"

/-- The code's suffix computation agrees with the claim's table on every
day of a month. -/
theorem daySuffixCode_eq_table : ∀ d : Nat, d < 32 → 1 ≤ d → daySuffixCode d = specSuffixTable d := by
  decide

/-- C10: a poll call whose `since` parameter is the empty string applies no
timestamp filter at all — it returns exactly the same records as a poll
call with `since` omitted, because the code guards the `$gt` clause with
Python truthiness (`if since:`), which the empty string fails. -/
theorem c10_empty_since_is_no_filter (db : List StoredEvent) (limit : Nat) :
    get_events db (some "") limit = get_events db none limit := rfl

/-- C8: whenever both timestamp parse attempts fail — ISO-8601 (after the
`Z` to `+00:00` rewrite) and the bare `strptime` format — the display
function returns its input unchanged; being a total function of its input,
it never raises to its caller. -/
theorem c8_display_fail_open (s : String)
    (h1 : pyFromIsoformat (pyReplace s "Z" "+00:00") = none)
    (h2 : pyStrptimeBare s = none) :
    format_timestamp s = s := by
  unfold format_timestamp parsedDt
  rw [h1, h2]

/-- Witness for C8 at the parse-failing input `"not-a-date"`. -/
theorem c8_display_fail_open_witness :
    pyFromIsoformat (pyReplace "not-a-date" "Z" "+00:00") = none ∧
      pyStrptimeBare "not-a-date" = none ∧
      format_timestamp "not-a-date" = "not-a-date" :=
  ⟨by decide, by decide, c8_display_fail_open "not-a-date" (by decide) (by decide)⟩

/-- C7: for every successfully parsed timestamp the displayed day's
ordinal suffix follows the fixed table: 1, 21, 31 get "st"; 2, 22 get
"nd"; 3, 23 get "rd"; all other days of the month get "th". -/
theorem c7_ordinal_suffix_table (s : String) (dt : PyDatetime)
    (h : parsedDt s = some dt) :
    daySuffixCode dt.day = specSuffixTable dt.day := by
  obtain ⟨h1, h31⟩ := parsedDt_day_bound h
  exact daySuffixCode_eq_table dt.day (by omega) h1

/-- Witness for C7 at `"2021-12-22T09:15:00Z"`, whose parsed day 22 takes
the "nd" suffix. -/
theorem c7_ordinal_suffix_table_witness :
    parsedDt "2021-12-22T09:15:00Z" = some ⟨2021, 12, 22, 9, 15, 0, some 0⟩ ∧
      daySuffixCode 22 = specSuffixTable 22 :=
  ⟨by decide, c7_ordinal_suffix_table "2021-12-22T09:15:00Z" ⟨2021, 12, 22, 9, 15, 0, some 0⟩
    (by decide)⟩

/-- The concrete push payload of the spec's scenario A. -/
def scenarioAPayload : Json :=
  .obj [("pusher", .obj [("name", .str "alice")]),
        ("ref", .str "refs/heads/feature-x"),
        ("head_commit", .obj [("timestamp", .str "2021-04-01T21:30:00Z")])]

/-- The canonical event scenario A must produce. -/
def scenarioAEvent : GitHubEvent :=
  ⟨"alice", .push, none, "feature-x", "2021-04-01T21:30:00Z"⟩

/-- C5: scenario A — the push classifier maps the concrete payload to
exactly the event `{author: "alice", action: PUSH, from_branch: none,
to_branch: "feature-x", timestamp: "2021-04-01T21:30:00Z"}` (whatever the
processing-time instant is, since the payload carries its own timestamp),
and the formatter renders its stored form as the exact string
`"alice" pushed to "feature-x" on 1st April 2021 - 09:30 PM UTC`. -/
theorem c5_scenario_a (now : String) :
    extract_push_event now scenarioAPayload = some scenarioAEvent ∧
      create_formatted_message scenarioAEvent.model_dump =
        "\"alice\" pushed to \"feature-x\" on 1st April 2021 - 09:30 PM UTC" := by
  constructor
  · rfl
  · decide

/-- C3: the push classification path absorbs missing fields through
default-value fallbacks — over every payload whose accessed fields are
each absent or well-typed it always produces an event — and the only way
it ever yields "no event" is the `except` wrapper catching an extraction
exception (modelled: `none` arises only from the error case of the
extraction body). -/
theorem c3_push_always_produces :
    (∀ (now : String) (p : Json) (sh : PushShape),
        pushShape? p = some sh → (extract_push_event now p).isSome = true) ∧
    (∀ (now : String) (p : Json),
        extract_push_event now p = none → extract_push_core now p = .error ()) := by
  constructor
  · intro now p sh hs
    rw [extract_push_char now p sh hs]
    rfl
  · intro now p h
    unfold extract_push_event at h
    cases hc : extract_push_core now p with
    | ok e => rw [hc] at h; exact absurd h (by simp)
    | error u => cases u; rfl

/-- Witness for C3: the empty payload `{}` — every field missing — still
produces an event. -/
theorem c3_push_always_produces_witness :
    pushShape? (.obj []) = some ⟨none, none, none, none⟩ ∧
      (extract_push_event "2020-01-01T00:00:00+00:00" (.obj [])).isSome = true :=
  ⟨by decide,
    c3_push_always_produces.1 "2020-01-01T00:00:00+00:00" (.obj []) ⟨none, none, none, none⟩
      (by decide)⟩

/-- A push payload whose `ref` contains `refs/heads/` beyond its leading
prefix. -/
def c4Payload : Json :=
  .obj [("ref", .str "refs/heads/a/refs/heads/b")]

/-- Counterexample to C4 as stated: for
`ref = "refs/heads/a/refs/heads/b"` the claim demands that only the
leading prefix be stripped, leaving `"a/refs/heads/b"`, but the code's
`str.replace` removes every occurrence and stores `to_branch = "a/b"`. -/
theorem c4_counterexample :
    extract_push_event "2020-01-01T00:00:00+00:00" c4Payload =
        some ⟨"Unknown", .push, none, "a/b", "2020-01-01T00:00:00+00:00"⟩ ∧
      stripHeadsSpec "refs/heads/a/refs/heads/b" = "a/refs/heads/b" ∧
      ("a/b" : String) ≠ "a/refs/heads/b" :=
  ⟨by decide, by decide, by decide⟩

/-- C4 amended: over well-typed payloads, `to_branch` equals `ref` with
every occurrence of the literal substring `"refs/heads/"` removed (Python
`str.replace` semantics), and `"unknown"` when `ref` is absent or empty;
in particular, whenever `ref` contains no occurrence of `"refs/heads/"`
other than possibly a leading prefix, this coincides with the claim's
strip-the-prefix reading. -/
theorem c4_amended (now : String) (p : Json) (sh : PushShape)
    (hs : pushShape? p = some sh) :
    ∃ e, extract_push_event now p = some e ∧
      ((sh.ref = none ∨ sh.ref = some "") → e.to_branch = "unknown") ∧
      (∀ r, sh.ref = some r → r ≠ "" →
        e.to_branch = pyReplace r "refs/heads/" "" ∧
        (containsSub "refs/heads/" (stripHeadsSpec r) = false →
          e.to_branch = stripHeadsSpec r)) := by
  refine ⟨pushEventModel now sh, extract_push_char now p sh hs, ?_, ?_⟩
  · intro hr
    rcases hr with hr | hr <;> simp [pushEventModel, hr]
  · intro r hr hne
    constructor
    · simp [pushEventModel, hr, hne]
    · intro hclean
      simp [pushEventModel, hr, hne, pyReplace_heads_eq_spec r hclean]

/-- Witness for C4 at `ref = "refs/heads/main"`: the stored branch is
`"main"`, agreeing with the spec's prefix strip. -/
theorem c4_amended_witness :
    ∃ e, extract_push_event "2020-01-01T00:00:00+00:00"
          (.obj [("ref", .str "refs/heads/main")]) = some e ∧
      ((some "refs/heads/main" = none ∨ some "refs/heads/main" = some "") →
        e.to_branch = "unknown") ∧
      (∀ r, some "refs/heads/main" = some r → r ≠ "" →
        e.to_branch = pyReplace r "refs/heads/" "" ∧
        (containsSub "refs/heads/" (stripHeadsSpec r) = false →
          e.to_branch = stripHeadsSpec r)) :=
  c4_amended "2020-01-01T00:00:00+00:00" (.obj [("ref", .str "refs/heads/main")])
    ⟨none, none, some "refs/heads/main", none⟩ (by decide)

/-- A push payload whose sender login is present but empty. -/
def c9Payload : Json :=
  .obj [("sender", .obj [("login", .str "")])]

/-- Counterexample to C9 as stated: with `pusher` missing and
`sender.login` present as the empty string, the fallback
`payload.get("sender", {}).get("login", "Unknown")` returns that empty
string (the `"Unknown"` default applies only when the key is absent), so
the classifier stores an event whose author is the empty string. -/
theorem c9_counterexample :
    ∃ e, extract_push_event "2020-01-01T00:00:00+00:00" c9Payload = some e ∧ e.author = "" :=
  ⟨⟨"", .push, none, "unknown", "2020-01-01T00:00:00+00:00"⟩, by decide, rfl⟩

/-- The pull-request author resolution is non-empty as long as the sender
login is not supplied as the empty string. -/
theorem prAuthor_ne_empty (sh : PRShape) (hsl : sh.senderLogin ≠ some "") :
    prAuthor sh ≠ "" := by
  unfold prAuthor
  cases hu : sh.userLogin with
  | none =>
    cases hl : sh.senderLogin with
    | none => simp
    | some l => simp_all
  | some l =>
    by_cases hle : l = ""
    · cases hl : sh.senderLogin with
      | none => simp [hle]
      | some l2 => simp_all
    · simp [hle]

/-- C9 amended: the author falls back from the primary name through the
sender login to the literal `"Unknown"`, so a stored author can only be
the empty string when a fallback login field (`sender.login`, or
`merged_by.login` on the merge path) is itself present as the empty
string; absent that, every produced event has a non-empty author. -/
theorem c9_amended :
    (∀ (now : String) (p : Json) (sh : PushShape) (e : GitHubEvent),
        pushShape? p = some sh → extract_push_event now p = some e →
        sh.login ≠ some "" → e.author ≠ "") ∧
    (∀ (now : String) (p : Json) (sh : PRShape) (e : GitHubEvent),
        prShape? p = some sh → extract_pull_request_event now p = some e →
        sh.senderLogin ≠ some "" → sh.mergedByLogin ≠ some "" → e.author ≠ "") := by
  constructor
  · intro now p sh e hs he hl
    rw [extract_push_char now p sh hs] at he
    injection he with he
    subst he
    unfold pushEventModel
    cases hn : sh.name with
    | none =>
      cases hlg : sh.login with
      | none => simp
      | some l => simp_all
    | some n =>
      by_cases hne : n = ""
      · cases hlg : sh.login with
        | none => simp [hne]
        | some l => simp_all
      · simp [hne]
  · intro now p sh e hs he hsl hml
    rw [extract_pr_char now p sh hs] at he
    unfold prEventModel at he
    split_ifs at he with h1 h2
    · injection he with he
      subst he
      cases hm : sh.mergedByLogin with
      | none => simpa using prAuthor_ne_empty sh hsl
      | some m => simp_all
    · injection he with he
      subst he
      exact prAuthor_ne_empty sh hsl

/-- Witness for C9 at scenario A's payload: the stored author `"alice"` is
non-empty. -/
theorem c9_amended_witness : scenarioAEvent.author ≠ "" :=
  c9_amended.1 "2020-01-01T00:00:00+00:00" scenarioAPayload
    ⟨some "alice", none, some "refs/heads/feature-x", some "2021-04-01T21:30:00Z"⟩
    scenarioAEvent (by decide) (by decide) (by decide)

/-- Every successful run of the push extraction body passes the literal
`None` as `from_branch`, so the produced event has it absent — over every
payload, well-typed or not. -/
theorem extract_push_core_from_branch {now : String} {p : Json} {e : GitHubEvent}
    (h : extract_push_core now p = .ok e) : e.from_branch = none := by
  unfold extract_push_core at h
  simp only [bind, Except.bind, pure, Except.pure] at h
  iterate 12 (all_goals try split at h)
  all_goals try exact Except.noConfusion h
  all_goals unfold mkGitHubEvent at h
  iterate 2 (all_goals try split at h)
  all_goals try exact Except.noConfusion h
  all_goals
    injection h with h
    subst h
    simp_all [validOptStr]

/-- An `opened` pull-request payload whose `head.ref` is explicitly
`null`. -/
def c6Payload : Json :=
  .obj [("action", .str "opened"),
        ("pull_request", .obj [("head", .obj [("ref", Json.null)])])]

/-- Counterexample to C6 as stated: an `opened` payload with
`head.ref = null` produces a PullRequest event whose `from_branch` is
absent — the `.get("ref", "unknown")` default applies only to a missing
key, a present `null` passes straight through pydantic's
`Optional[str]`. -/
theorem c6_counterexample :
    extract_pull_request_event "2020-01-01T00:00:00+00:00" c6Payload =
        some ⟨"Unknown", .pullRequest, none, "unknown", "2020-01-01T00:00:00+00:00"⟩ ∧
      (⟨"Unknown", .pullRequest, none, "unknown", "2020-01-01T00:00:00+00:00"⟩ :
          GitHubEvent).from_branch = none :=
  ⟨by decide, rfl⟩

/-- The validated `from_branch` is absent exactly when the payload carried
an explicit `null` `head.ref`. -/
theorem fbOf_eq_none_iff (v : Option (Option String)) :
    fbOf v = none ↔ v = some none := by
  rcases v with _ | _ | s <;> simp [fbOf]

/-- C6 amended: every Push event has `from_branch` absent (over all
payloads); a PullRequest/Merge event produced from a well-typed payload
has `from_branch` present — the literal `"unknown"` when branch data was
omitted — except that an explicit `null` `head.ref` (and only that) makes
it absent. -/
theorem c6_amended :
    (∀ (now : String) (p : Json) (e : GitHubEvent),
        extract_push_event now p = some e → e.from_branch = none) ∧
    (∀ (now : String) (p : Json) (sh : PRShape) (e : GitHubEvent),
        prShape? p = some sh → extract_pull_request_event now p = some e →
        (e.from_branch = none ↔ sh.fromRef = some none)) := by
  constructor
  · intro now p e h
    unfold extract_push_event at h
    cases hc : extract_push_core now p with
    | ok e2 =>
      rw [hc] at h
      injection h with h
      subst h
      exact extract_push_core_from_branch hc
    | error u => rw [hc] at h; exact absurd h (by simp)
  · intro now p sh e hs he
    rw [extract_pr_char now p sh hs] at he
    unfold prEventModel at he
    split_ifs at he with h1 h2 <;>
      injection he with he <;> subst he <;> exact fbOf_eq_none_iff sh.fromRef

/-- Witness for C6: scenario A's push event has `from_branch` absent, and
scenario B's opened pull request (string `head.ref`) has it present. -/
theorem c6_amended_witness :
    scenarioAEvent.from_branch = none ∧
      ¬((⟨"bob", .pullRequest, some "dev", "main", "2021-05-02T10:00:00Z"⟩ :
            GitHubEvent).from_branch = none) :=
  ⟨c6_amended.1 "2020-01-01T00:00:00+00:00" scenarioAPayload scenarioAEvent (by decide),
    fun hnone =>
      absurd
        ((c6_amended.2 "2020-01-01T00:00:00+00:00"
            (.obj [("action", .str "opened"),
              ("pull_request", .obj [("user", .obj [("login", .str "bob")]),
                ("head", .obj [("ref", .str "dev")]),
                ("base", .obj [("ref", .str "main")]),
                ("created_at", .str "2021-05-02T10:00:00Z")])])
            ⟨some "opened", some "bob", none, some (some "dev"), some "main", none, none, none,
              some "2021-05-02T10:00:00Z"⟩
            ⟨"bob", .pullRequest, some "dev", "main", "2021-05-02T10:00:00Z"⟩
            (by decide) (by decide)).mp hnone)
        (by decide)⟩

/-- A `closed` pull-request payload, merged, whose `merged_at` is present
as the empty string. -/
def c2Payload : Json :=
  .obj [("action", .str "closed"),
        ("pull_request", .obj [("merged", .bool true), ("merged_at", .str "")])]

/-- Counterexample to C2 as stated: sub-action `"closed"`,
`pull_request.merged` true and `merged_at` present (as the empty string) —
the claim demands a Merge event, but the code's truthiness test
`and merged_at` fails on the empty string and no event is produced. -/
theorem c2_counterexample :
    prShape? c2Payload =
        some ⟨some "closed", none, none, none, none, some true, some "", none, none⟩ ∧
      extract_pull_request_event "2020-01-01T00:00:00+00:00" c2Payload = none :=
  ⟨by decide, by decide⟩

/-- C2 amended: over well-typed payloads the 3-way rule holds with the
merge guard read as Python truthiness — sub-action `"closed"` with
`merged` true and `merged_at` present as a non-empty string yields a Merge
event stamped `merged_at`; otherwise sub-action `"opened"`/`"reopened"`
yields a PullRequest event stamped `created_at` (the current instant when
absent); any other sub-action yields no event. -/
theorem c2_amended (now : String) (p : Json) (sh : PRShape)
    (hs : prShape? p = some sh) :
    ((sh.action = some "closed" ∧ sh.merged = some true ∧ sh.mergedAt.getD "" ≠ "") →
      ∃ e, extract_pull_request_event now p = some e ∧ e.action = .merge ∧
        e.timestamp = sh.mergedAt.getD "") ∧
    (¬(sh.action = some "closed" ∧ sh.merged = some true ∧ sh.mergedAt.getD "" ≠ "") →
      (sh.action = some "opened" ∨ sh.action = some "reopened") →
      ∃ e, extract_pull_request_event now p = some e ∧ e.action = .pullRequest ∧
        e.timestamp = sh.createdAt.getD now) ∧
    (¬(sh.action = some "closed" ∧ sh.merged = some true ∧ sh.mergedAt.getD "" ≠ "") →
      ¬(sh.action = some "opened" ∨ sh.action = some "reopened") →
      extract_pull_request_event now p = none) := by
  rw [extract_pr_char now p sh hs]
  unfold prEventModel
  refine ⟨fun h1 => ?_, fun h1 h2 => ?_, fun h1 h2 => ?_⟩
  · rw [if_pos h1]
    exact ⟨_, rfl, rfl, rfl⟩
  · rw [if_neg h1, if_pos h2]
    exact ⟨_, rfl, rfl, rfl⟩
  · rw [if_neg h1, if_neg h2]

/-- The payload of the spec's scenario C: the merged close of a pull
request. -/
def scenarioCPayload : Json :=
  .obj [("action", .str "closed"),
        ("pull_request", .obj
          [("user", .obj [("login", .str "bob")]),
           ("head", .obj [("ref", .str "dev")]),
           ("base", .obj [("ref", .str "main")]),
           ("merged", .bool true),
           ("merged_at", .str "2021-05-03T11:00:00Z"),
           ("merged_by", .obj [("login", .str "carol")])])]

/-- The shape of scenario C's payload. -/
def scenarioCShape : PRShape :=
  ⟨some "closed", some "bob", none, some (some "dev"), some "main", some true,
    some "2021-05-03T11:00:00Z", some "carol", none⟩

/-- Witness for C2 at scenario C: the merged close produces a Merge event
stamped with `merged_at`. -/
theorem c2_amended_witness :
    ∃ e, extract_pull_request_event "2020-01-01T00:00:00+00:00" scenarioCPayload = some e ∧
      e.action = .merge ∧ e.timestamp = (scenarioCShape.mergedAt).getD "" :=
  (c2_amended "2020-01-01T00:00:00+00:00" scenarioCPayload scenarioCShape (by decide)).1
    (by decide)

/-- A store holding one record whose timestamp is the empty string. -/
def c1Db : List StoredEvent :=
  [⟨1, "a", "PUSH", none, "m", ""⟩]

/-- Counterexample to C1 as stated: polling with the watermark `T = ""` —
a legal string value of `since` — applies no filter at all (the code tests
`if since:`), so a stored record with timestamp `""` is returned even
though its timestamp is `≤ T`. -/
theorem c1_counterexample :
    ∃ v ∈ get_events c1Db (some "") 1, v.timestamp ≤ "" := by
  refine ⟨EventResponse.ofStored ⟨1, "a", "PUSH", none, "m", ""⟩, ?_, le_refl _⟩
  have h : get_events c1Db (some "") 1 = [EventResponse.ofStored ⟨1, "a", "PUSH", none, "m", ""⟩] :=
    rfl
  rw [h]
  exact List.mem_singleton.mpr rfl

/-- C1 amended: for every non-empty watermark string `T` and natural limit
`L`, the poll result contains no record whose stored timestamp is `≤ T`,
contains at most `L` records, and is pairwise sorted descending by the
stored timestamp, most recent first.  (The store is modelled from §4.4 of
the spec; only the empty-string watermark, which the code's truthiness
guard drops, had to be excluded.) -/
theorem c1_amended (db : List StoredEvent) (t : String) (L : Nat) (ht : t ≠ "") :
    (∀ v ∈ get_events db (some t) L, ¬v.timestamp ≤ t) ∧
      (get_events db (some t) L).length ≤ L ∧
      (get_events db (some t) L).Pairwise (fun a b => b.timestamp ≤ a.timestamp) := by
  have hq : get_events db (some t) L =
      (((db.filter fun e => decide (t < e.timestamp)).insertionSort tsGE).take L).map
        EventResponse.ofStored := by
    unfold get_events storeQuery
    dsimp only
    rw [if_neg ht]
  rw [hq]
  refine ⟨?_, ?_, ?_⟩
  · intro v hv
    rw [List.mem_map] at hv
    obtain ⟨e, he, rfl⟩ := hv
    have he2 := List.mem_of_mem_take he
    have he3 := (List.perm_insertionSort tsGE _).mem_iff.mp he2
    have hlt : t < e.timestamp := of_decide_eq_true (List.mem_filter.mp he3).2
    exact not_le.mpr hlt
  · rw [List.length_map]
    exact List.length_take_le _ _
  · rw [List.pairwise_map]
    have hsorted : ((db.filter fun e => decide (t < e.timestamp)).insertionSort tsGE).Pairwise
        tsGE :=
      List.sorted_insertionSort tsGE _
    exact (hsorted.sublist (List.take_sublist _ _)).imp fun hab => hab

/-- Witness for C1 at a two-record store, watermark `"b"` and limit 1. -/
theorem c1_amended_witness :
    (∀ v ∈ get_events [⟨1, "a", "PUSH", none, "m", "a"⟩, ⟨2, "b", "PUSH", none, "m", "c"⟩]
        (some "b") 1, ¬v.timestamp ≤ "b") ∧
      (get_events [⟨1, "a", "PUSH", none, "m", "a"⟩, ⟨2, "b", "PUSH", none, "m", "c"⟩]
          (some "b") 1).length ≤ 1 ∧
      (get_events [⟨1, "a", "PUSH", none, "m", "a"⟩, ⟨2, "b", "PUSH", none, "m", "c"⟩]
          (some "b") 1).Pairwise (fun a b => b.timestamp ≤ a.timestamp) :=
  c1_amended [⟨1, "a", "PUSH", none, "m", "a"⟩, ⟨2, "b", "PUSH", none, "m", "c"⟩] "b" 1
    (by decide)

/-- Witness for C5 at a concrete processing-time instant. -/
theorem c5_scenario_a_witness :
    extract_push_event "2020-01-01T00:00:00+00:00" scenarioAPayload = some scenarioAEvent ∧
      create_formatted_message scenarioAEvent.model_dump =
        "\"alice\" pushed to \"feature-x\" on 1st April 2021 - 09:30 PM UTC" :=
  c5_scenario_a "2020-01-01T00:00:00+00:00"

/-- Witness for C10 at a concrete two-record store. -/
theorem c10_empty_since_is_no_filter_witness :
    get_events [⟨1, "a", "PUSH", none, "m", "a"⟩, ⟨2, "b", "PUSH", none, "m", "c"⟩] (some "") 2 =
      get_events [⟨1, "a", "PUSH", none, "m", "a"⟩, ⟨2, "b", "PUSH", none, "m", "c"⟩] none 2 :=
  c10_empty_since_is_no_filter [⟨1, "a", "PUSH", none, "m", "a"⟩, ⟨2, "b", "PUSH", none, "m", "c"⟩] 2
